import Mathlib

/-!
Verification development for the request-construction and response-normalization
pipeline of the nylas-nodejs client library (src/nylas-connection.ts, here
src/unnamed/part_000, and src/nylas.ts), shallowly embedded in Lean.

JavaScript dynamic values are modelled by the inductive type `JVal`; JavaScript
objects are modelled as association lists keyed by strings (insertion order
preserved, assignment to an existing key keeps its position, `delete` removes
the key), matching the observable behaviour of plain JS objects as used by the
source.  Truthiness, template-literal coercion and loose comparisons are
modelled explicitly where the source relies on them.
-/

namespace NylasSpec

/-- A JavaScript runtime value, restricted to the shapes the source code
manipulates: null, booleans, (integer) numbers, strings, arrays and plain
objects.  `undefined` is represented by `Option.none` at use sites (absent
object properties, absent arguments). -/
inductive JVal where
  | jnull : JVal
  | jbool (b : Bool) : JVal
  | jnum (n : Int) : JVal
  | jstr (s : String) : JVal
  | jarr (xs : List JVal) : JVal
  | jobj (fields : List (String × JVal)) : JVal

/-- Property lookup on an association list modelling a JS object: the value at
the first matching key, `none` when the key is absent (JS `undefined`). -/
def alistGet {α : Type} : List (String × α) → String → Option α
  | [], _ => none
  | (k, v) :: rest, key => if k = key then some v else alistGet rest key

/-- Property assignment on an association list modelling a JS object: replaces
the value in place when the key exists, otherwise appends the new key at the
end (JS insertion order). -/
def alistSet {α : Type} : List (String × α) → String → α → List (String × α)
  | [], key, v => [(key, v)]
  | (k, w) :: rest, key, v =>
    if k = key then (k, v) :: rest else (k, w) :: alistSet rest key v

/-- The JS `delete` operator on an object key: removes every entry at that key
(an object built by `alistSet` holds at most one). -/
def alistDel {α : Type} : List (String × α) → String → List (String × α)
  | [], _ => []
  | (k, v) :: rest, key =>
    if k = key then alistDel rest key else (k, v) :: alistDel rest key

/-- JS truthiness of a value: null, `false`, `0` and the empty string are
falsy; every array and object is truthy. -/
def truthyJ : JVal → Bool
  | .jnull => false
  | .jbool b => b
  | .jnum n => n != 0
  | .jstr s => !s.isEmpty
  | .jarr _ => true
  | .jobj _ => true

/-- JS truthiness of a possibly-undefined value (`undefined` is falsy). -/
def truthyOptJ : Option JVal → Bool
  | none => false
  | some v => truthyJ v

/-- JS truthiness of a possibly-absent string (null/undefined and the empty
string are falsy). -/
def truthyS : Option String → Bool
  | none => false
  | some s => !s.isEmpty

/-- The JS strict comparison `=== true` used by the query normalization. -/
def isJsTrue : JVal → Bool
  | .jbool true => true
  | _ => false

mutual
/-- JS string coercion `String(v)` as performed by template literals: arrays
join their elements with commas (null elements becoming empty strings), plain
objects print as "[object Object]". -/
def jsToString : JVal → String
  | .jnull => "null"
  | .jbool b => cond b "true" "false"
  | .jnum n => toString n
  | .jstr s => s
  | .jarr xs => String.intercalate "," (jsArrayElems xs)
  | .jobj _ => "[object Object]"

/-- Element-wise coercion used by `Array.prototype.join`: null elements render
as the empty string. -/
def jsArrayElems : List JVal → List String
  | [] => []
  | .jnull :: rest => "" :: jsArrayElems rest
  | v :: rest => jsToString v :: jsArrayElems rest
end

/-- Template-literal interpolation of a possibly-undefined value: JS renders
`undefined` as the string "undefined". -/
def jsTemplate : Option JVal → String
  | none => "undefined"
  | some v => jsToString v

/-- Template-literal interpolation of a string-or-null configuration value: JS
renders `null` as the string "null". -/
def jsTemplateS : Option String → String
  | none => "null"
  | some s => s

/-- JS property access `v[key]` on an arbitrary value: yields the entry of a
plain object, `undefined` otherwise. -/
def jprop : JVal → String → Option JVal
  | .jobj fields, key => alistGet fields key
  | _, _ => none

/-- JSON whitespace skipping used by the parser model. -/
def jsonSkipWs : List Char → List Char
  | c :: rest =>
    if c = ' ' ∨ c = '\t' ∨ c = '\n' ∨ c = '\r' then jsonSkipWs rest else c :: rest
  | [] => []

/-- Leading decimal digits of a character list, with the remainder; `none`
when no leading digit is present. -/
def leadingDigits (cs : List Char) : Option (Nat × List Char) :=
  let ds := cs.takeWhile Char.isDigit
  if ds.isEmpty then none
  else some (ds.foldl (fun acc c => acc * 10 + (c.toNat - '0'.toNat)) 0, cs.dropWhile Char.isDigit)

/-- JSON string-literal body: characters up to the closing quote.  Escape
sequences are outside the modelled subset and make the parse fail. -/
def jsonStringBody : List Char → Option (String × List Char)
  | [] => none
  | '"' :: rest => some ("", rest)
  | '\\' :: _ => none
  | c :: rest =>
    match jsonStringBody rest with
    | some (s, r) => some (String.mk (c :: s.data), r)
    | none => none

mutual
/-- One JSON value at the head of the input, fuel-indexed. -/
def jsonVal : Nat → List Char → Option (JVal × List Char)
  | 0, _ => none
  | Nat.succ fuel, cs =>
    match jsonSkipWs cs with
    | 'n' :: 'u' :: 'l' :: 'l' :: rest => some (.jnull, rest)
    | 't' :: 'r' :: 'u' :: 'e' :: rest => some (.jbool true, rest)
    | 'f' :: 'a' :: 'l' :: 's' :: 'e' :: rest => some (.jbool false, rest)
    | '"' :: rest =>
      match jsonStringBody rest with
      | some (s, r) => some (.jstr s, r)
      | none => none
    | '[' :: rest =>
      (match jsonSkipWs rest with
       | ']' :: r2 => some (.jarr [], r2)
       | r2 =>
         match jsonElems fuel r2 with
         | some (xs, r3) => some (.jarr xs, r3)
         | none => none)
    | '\x7b' :: rest =>
      (match jsonSkipWs rest with
       | '\x7d' :: r2 => some (.jobj [], r2)
       | r2 =>
         match jsonMembers fuel r2 with
         | some (fs, r3) => some (.jobj fs, r3)
         | none => none)
    | '-' :: rest =>
      (match leadingDigits rest with
       | some (n, r) => some (.jnum (-(n : Int)), r)
       | none => none)
    | c :: rest =>
      if c.isDigit then
        match leadingDigits (c :: rest) with
        | some (n, r) => some (.jnum (n : Int), r)
        | none => none
      else none
    | [] => none

/-- Comma-separated JSON array elements up to the closing bracket. -/
def jsonElems : Nat → List Char → Option (List JVal × List Char)
  | 0, _ => none
  | Nat.succ fuel, cs =>
    match jsonVal fuel cs with
    | some (v, r) =>
      (match jsonSkipWs r with
       | ',' :: r2 =>
         (match jsonElems fuel r2 with
          | some (xs, r3) => some (v :: xs, r3)
          | none => none)
       | ']' :: r2 => some ([v], r2)
       | _ => none)
    | none => none

/-- Comma-separated JSON object members up to the closing brace. -/
def jsonMembers : Nat → List Char → Option (List (String × JVal) × List Char)
  | 0, _ => none
  | Nat.succ fuel, cs =>
    match jsonSkipWs cs with
    | '"' :: rest =>
      (match jsonStringBody rest with
       | some (k, r) =>
         (match jsonSkipWs r with
          | ':' :: r2 =>
            (match jsonVal fuel r2 with
             | some (v, r3) =>
               (match jsonSkipWs r3 with
                | ',' :: r4 =>
                  (match jsonMembers fuel r4 with
                   | some (fs, r5) => some ((k, v) :: fs, r5)
                   | none => none)
                | '\x7d' :: r4 => some ([(k, v)], r4)
                | _ => none)
             | none => none)
          | _ => none)
       | none => none)
    | _ => none
end

/-- Modelled from the spec: the platform builtin `JSON.parse` (an external
collaborator of this repository, used at part_000 line 167 for bodies of
requests whose `json` flag was explicitly false).  The model covers the JSON
grammar over the value shapes of `JVal` (null, booleans, integer numbers,
escape-free strings, arrays, objects); any other input fails to parse, which
in JS raises a SyntaxError. -/
def jsonParse (s : String) : Option JVal :=
  match jsonVal (s.length + 1) s.data with
  | some (v, rest) => if (jsonSkipWs rest).isEmpty then some v else none
  | none => none

/-- Whether the pattern is a prefix of the character list (structural, so
that concrete instances reduce inside the kernel). -/
def listHasPrefixChars : List Char → List Char → Bool
  | _, [] => true
  | [], _ :: _ => false
  | c :: cs, p :: ps => c = p && listHasPrefixChars cs ps

/-- Whether the pattern occurs as a contiguous substring of the character
list. -/
def listHasSubChars : List Char → List Char → Bool
  | [], pat => pat.isEmpty
  | c :: cs, pat => listHasPrefixChars (c :: cs) pat || listHasSubChars cs pat

/-- Modelled from the spec: the JS `String.prototype.indexOf` occurrence test
— `s.indexOf(pat) === -1` is `strContainsSub s pat = false`. -/
def strContainsSub (s pat : String) : Bool := listHasSubChars s.data pat.data

/-- The text before the first `-` separator: JS `s.split('-')[0]` as used by
the version checker. -/
def versionLeadSegment (s : String) : String :=
  String.mk (s.data.takeWhile (fun c => c ≠ '-'))

/-- Modelled from the spec: the platform builtin `parseInt` in base-10 mode as
applied by the version checker — leading whitespace skipped, an optional sign,
then leading decimal digits; `none` models NaN (no digits to parse). -/
def parseIntJS (s : String) : Option Int :=
  let cs := s.data.dropWhile (fun c => c = ' ' ∨ c = '\t' ∨ c = '\n' ∨ c = '\r')
  match cs with
  | '+' :: rest =>
    (match leadingDigits rest with
     | some (n, _) => some (n : Int)
     | none => none)
  | '-' :: rest =>
    (match leadingDigits rest with
     | some (n, _) => some (-(n : Int))
     | none => none)
  | _ =>
    (match leadingDigits cs with
     | some (n, _) => some (n : Int)
     | none => none)

/-! ## Data model -/

/-- Modelled from the spec: the process-wide Configuration Store (the `config`
module is imported by both source files but its own file is not among the
sources; its shape follows the spec's Configuration data model and the getter
and setter declarations in src/nylas.ts — `clientId : string` with default
empty string, `clientSecret : string`, `apiServer : string | null`). -/
structure ConfigStore where
  clientId : String
  clientSecret : String
  apiServer : Option String

/-- The per-connection state of `NylasConnection` (part_000 lines 40-63):
the caller-held access token and client id, both possibly null/undefined. -/
structure NylasConnection where
  accessToken : Option String
  clientId : Option String

/-- The `RequestOptions` descriptor type (part_000 lines 28-37).  Header
values are `Option String` because the client-id header is later assigned the
possibly-null connection client id; caller-supplied headers are `some`. -/
structure RequestOptions where
  path : String
  method : Option String := none
  headers : Option (List (String × Option String)) := none
  qs : Option (List (String × JVal)) := none
  downloadRequest : Option Bool := none
  json : Option Bool := none
  formData : Option JVal := none
  body : Option JVal := none

/-- The `auth` object injected into transport options (part_000 lines 100-104). -/
structure AuthOptions where
  user : String
  pass : String
  sendImmediately : Bool

/-- The transport options produced by the translator (`CoreOptions &
UrlOptions` as populated by part_000 lines 66-116).  `encodingNull` models the
`encoding: null` assignment made for download requests. -/
structure ResolvedOptions where
  method : String
  url : String
  headers : List (String × Option String)
  json : Bool
  encodingNull : Bool
  formData : Option JVal
  body : Option JVal
  qs : Option (List (String × JVal))
  auth : Option AuthOptions

/-- The SDK's hardcoded supported API version (part_000 line 26). -/
def SUPPORTED_API_VERSION : String := "2.1"

/-- Modelled from the spec: the SDK package version read from package.json
(a file not among the sources).  No claim depends on its value; it only feeds
the default User-Agent header text. -/
def SDK_VERSION : String := "0.0.0"

/-! ## Request Descriptor → HTTP Options Translator (part_000 lines 65-117) -/

/-- The header-injection step (part_000 lines 107-114): sets a default
User-Agent only when the header is null or absent, then overwrites the two
version headers and the client-id header.  In the source these writes mutate
`newOptions.headers`, which aliases the caller's headers object whenever the
descriptor supplied one. -/
def injectHeaders (clientId : Option String) (h : List (String × Option String)) :
    List (String × Option String) :=
  let h1 :=
    match alistGet h "User-Agent" with
    | some (some _) => h
    | _ => alistSet h "User-Agent" (some ("Nylas Node SDK v" ++ SDK_VERSION))
  let h2 := alistSet h1 "Nylas-API-Version" (some SUPPORTED_API_VERSION)
  let h3 := alistSet h2 "Nylas-SDK-API-Version" (some SUPPORTED_API_VERSION)
  alistSet h3 "X-Nylas-Client-Id" clientId

/-- The query normalization step (part_000 lines 85-93) applied to the spread
copy of the provided query mapping: when the `expanded` entry is truthy, a
`view = 'expanded'` entry is injected if the value is strictly `true`, and the
`expanded` key is deleted; a falsy `expanded` entry is left untouched. -/
def normalizeQs (qs : List (String × JVal)) : List (String × JVal) :=
  match alistGet qs "expanded" with
  | some v =>
    if truthyJ v then
      alistDel (if isJsTrue v then alistSet qs "view" (.jstr "expanded") else qs) "expanded"
    else qs
  | none => qs

/-- The translator `NylasConnection.requestOptions` (part_000 lines 65-117).
The first component is the new transport options object; the second is the
state of the descriptor after the call, reifying the source's aliasing of the
caller-supplied headers object into `newOptions.headers` (line 69) followed by
the in-place header injection (lines 107-114): a supplied headers mapping is
mutated, every other descriptor field is untouched. -/
def requestOptions (store : ConfigStore) (conn : NylasConnection) (o : RequestOptions) :
    ResolvedOptions × RequestOptions :=
  let headers0 := o.headers.getD []
  let user : Option String :=
    if o.path.take 3 = "/a/" then some store.clientSecret else conn.accessToken
  let auth : Option AuthOptions :=
    match user with
    | some u => if u.isEmpty then none else some { user := u, pass := "", sendImmediately := true }
    | none => none
  let finalHeaders := injectHeaders conn.clientId headers0
  let res : ResolvedOptions :=
    { method := o.method.getD "GET"
      url := jsTemplateS store.apiServer ++ o.path
      headers := finalHeaders
      json := o.json.getD true
      encodingNull := o.downloadRequest = some true
      formData := if truthyOptJ o.formData then o.formData else none
      body :=
        if truthyOptJ o.formData then none
        else some (if truthyOptJ o.body then o.body.getD (.jobj []) else .jobj [])
      qs := o.qs.map normalizeQs
      auth := auth }
  (res, { o with headers := o.headers.map (fun _ => finalHeaders) })

/-! ## Version Compatibility Checker (part_000 lines 119-140) -/

/-- The body of the version warning (part_000 lines 124-127). -/
def versionWarningText (sdk api : String) : String :=
  "WARNING: SDK version may not support your Nylas API version. SDK supports version "
    ++ sdk ++ " of the API and your application is currently running on version "
    ++ api ++ " of the API."

/-- The directional hint appended to the version warning (part_000 lines
129-136): each version's text before the first `-` is parsed with `parseInt`;
a failed parse (NaN) makes both comparisons false and no hint is appended. -/
def versionHint (sdk api : String) : String :=
  match parseIntJS (versionLeadSegment sdk), parseIntJS (versionLeadSegment api) with
  | some sdkNum, some apiNum =>
    if sdkNum > apiNum then
      " Please update the version of the API that your application is using through the developer dashboard."
    else if apiNum > sdkNum then
      " Please update the sdk to ensure it works properly."
    else ""
  | _, _ => ""

/-- The checker `NylasConnection._getWarningForVersion` (part_000 lines
119-140): empty when the two (possibly absent) version strings are loosely
equal, or when either is absent or empty (the `sdkApiVersion && apiVersion`
guard); otherwise the warning body plus the directional hint. -/
def getWarningForVersion (sdkApiVersion apiVersion : Option String) : String :=
  if sdkApiVersion = apiVersion then ""
  else
    match sdkApiVersion, apiVersion with
    | some sdk, some api =>
      if sdk.isEmpty ∨ api.isEmpty then ""
      else versionWarningText sdk api ++ versionHint sdk api
    | _, _ => ""

/-! ## Response Normalizer (part_000 lines 142-195) -/

/-- A JS Error object as enriched by the normalizer: a message and the
`statusCode` property attached on failures. -/
structure ErrObj where
  message : String
  statusCode : Option Nat := none

/-- The transport response object handed to the completion callback.  A
`statusCode` of 0 models an absent/undefined status (falsy in JS, so neither
greater than 299 nor attached to the error). -/
structure HttpResponse where
  statusCode : Nat
  headers : List (String × Option String) := []
  rawBody : Option JVal := none

/-- The settled state of the promise returned by `NylasConnection.request`:
resolved with the parsed body, resolved with the full response object (for
download requests), rejected with an error — or an exception thrown out of
the transport completion callback (the `JSON.parse` call at line 167 is not
guarded, and a throw inside the callback happens after the promise executor
has returned, so it settles nothing and escapes to the transport library). -/
inductive ReqOutcome where
  | resolvedBody (v : JVal) : ReqOutcome
  | resolvedResponse (r : HttpResponse) : ReqOutcome
  | rejected (e : ErrObj) : ReqOutcome
  | thrownParse (raw : String) : ReqOutcome

/-- Whether the promise was rejected. -/
def ReqOutcome.isRejected : ReqOutcome → Bool
  | .rejected _ => true
  | _ => false

/-- Whether the promise was resolved. -/
def ReqOutcome.isResolved : ReqOutcome → Bool
  | .resolvedBody _ => true
  | .resolvedResponse _ => true
  | _ => false

/-- The base failure message (part_000 lines 171-173): the transport error's
message when one is present, otherwise `new Error(body.message)` — whose
message is the empty string when `body.message` is undefined, and the string
coercion of the value otherwise. -/
def failureMessageBase (error : Option ErrObj) (body : JVal) : String :=
  match error with
  | some e => e.message
  | none =>
    match jprop body "message" with
    | some v => jsToString v
    | none => ""

/-- The failure message after the `missing_fields` step (part_000 lines
174-176): a truthy `missing_fields` overwrites the message with the template
`body.message: body.missing_fields` (note: `body.message`, not the previous
error message, and rendering undefined as "undefined"). -/
def failureMessageWithMissingFields (error : Option ErrObj) (body : JVal) : String :=
  match jprop body "missing_fields" with
  | some mf =>
    if truthyJ mf then jsTemplate (jprop body "message") ++ ": " ++ jsToString mf
    else failureMessageBase error body
  | none => failureMessageBase error body

/-- The exact text the source appends before a server error value: the
template literal at part_000 lines 178-180 spans three source lines, so it
embeds a newline and the following line's 14-space indentation. -/
def serverErrorOpenText : String := " (Server Error:\n              "

/-- The exact text the source appends after a server error value: a newline
and the closing line's 12-space indentation before the parenthesis. -/
def serverErrorCloseText : String := "\n            )"

/-- The final failure message (part_000 lines 177-181): a truthy
`server_error` appends the multi-line parenthetical to the current message. -/
def failureMessage (error : Option ErrObj) (body : JVal) : String :=
  match jprop body "server_error" with
  | some se =>
    if truthyJ se then
      failureMessageWithMissingFields error body
        ++ serverErrorOpenText ++ jsToString se ++ serverErrorCloseText
    else failureMessageWithMissingFields error body
  | none => failureMessageWithMissingFields error body

/-- The enriched error rejected on failure (part_000 lines 170-185): the
failure message plus the response status code, attached only when truthy. -/
def enrichFailureError (error : Option ErrObj) (resp : HttpResponse) (body : JVal) : ErrObj :=
  { message := failureMessage error body
    statusCode :=
      if resp.statusCode ≠ 0 then some resp.statusCode
      else
        match error with
        | some e => e.statusCode
        | none => none }

/-- The body value the success/failure decision inspects: the callback's body
defaulted to `{}` when undefined (part_000 line 146), then — when the resolved
`json` flag is false — re-parsed from its string coercion by `JSON.parse`
(line 167); `none` models the parse throwing. -/
def parsedRequestBody (jsonFlag : Bool) (bodyIn : Option JVal) : Option JVal :=
  let body0 := bodyIn.getD (.jobj [])
  if jsonFlag = false then jsonParse (jsToString body0) else some body0

/-- The transport completion callback of `NylasConnection.request` (part_000
lines 146-193).  With no response object the promise is rejected with the
transport error or a fresh "No response" error.  Otherwise the version warning
is computed and logged (a side effect with no bearing on the outcome), the
body is re-parsed when the resolved `json` flag is false (a parse failure
throws out of the callback), and the request is settled: rejected with the
enriched error on a transport error or a status above 299, else resolved with
the full response for download requests or with the body. -/
def requestCallback (o : RequestOptions) (ropts : ResolvedOptions) (error : Option ErrObj)
    (response : Option HttpResponse) (bodyIn : Option JVal) : ReqOutcome :=
  match response with
  | none => .rejected (error.getD { message := "No response" })
  | some resp =>
    match parsedRequestBody ropts.json bodyIn with
    | none => .thrownParse (jsToString (bodyIn.getD (.jobj [])))
    | some body =>
      if error.isSome ∨ resp.statusCode > 299 then
        .rejected (enrichFailureError error resp body)
      else
        if o.downloadRequest = some true then .resolvedResponse resp
        else .resolvedBody body

/-- The method `NylasConnection.request` (part_000 lines 142-195): resolves
the transport options for the descriptor, issues the transport call, and
settles the promise according to the completion callback above, here applied
to an explicit transport completion (error, response, body). -/
def request (store : ConfigStore) (conn : NylasConnection) (o : RequestOptions)
    (error : Option ErrObj) (response : Option HttpResponse) (bodyIn : Option JVal) : ReqOutcome :=
  requestCallback o (requestOptions store conn o).1 error response bodyIn

/-! ## Top-level configure and auth flow helpers (src/nylas.ts) -/

/-- The fallback production API server URL (nylas.ts line 55). -/
def defaultApiServer : String := "https://api.nylas.com"

/-- `Nylas.config` (nylas.ts lines 31-78) acting on the configuration store.
Throws when a truthy `apiServer` lacks the `://` separator (`indexOf === -1`
is modelled by `splitOn` finding a single segment); persists `clientId` and
`clientSecret` only when truthy; stores a truthy `apiServer`, else the fixed
production URL.  The connection and collection wiring built afterwards carries
no logic of its own and is not modelled. -/
def nylasConfig (store : ConfigStore) (clientId clientSecret : String)
    (apiServer : Option String) : Except String ConfigStore :=
  let apiTruthy := truthyS apiServer
  if apiTruthy ∧ strContainsSub (apiServer.getD "") "://" = false then
    .error "Please specify a fully qualified URL for the API Server."
  else
    let st1 := if clientId.isEmpty then store else { store with clientId := clientId }
    let st2 := if clientSecret.isEmpty then st1 else { st1 with clientSecret := clientSecret }
    let st3 :=
      if apiTruthy then { st2 with apiServer := apiServer }
      else { st2 with apiServer := some defaultApiServer }
    .ok st3

/-- The options record of `Nylas.urlForAuthentication` (nylas.ts lines
167-174). -/
structure AuthUrlOptions where
  redirectURI : Option String := none
  loginHint : Option String := none
  state : Option String := none
  scopes : Option (List String) := none

/-- `Nylas.urlForAuthentication` (nylas.ts lines 167-194): throws on a falsy
configured client id or a falsy redirect URI; defaults a falsy login hint to
the empty string; concatenates the authorization URL with no encoding, then
appends the state and the comma-joined scopes exactly when those options are
non-null. -/
def urlForAuthentication (store : ConfigStore) (options : AuthUrlOptions) :
    Except String String :=
  if store.clientId.isEmpty then
    .error "urlForAuthentication() cannot be called until you provide a clientId via config()"
  else if ¬ truthyS options.redirectURI then
    .error "urlForAuthentication() requires options.redirectURI"
  else
    let loginHint := (options.loginHint.getD "")
    let url := jsTemplateS store.apiServer
      ++ "/oauth/authorize?client_id=" ++ store.clientId
      ++ "&response_type=code&login_hint=" ++ loginHint
      ++ "&redirect_uri=" ++ (options.redirectURI.getD "")
    let url :=
      match options.state with
      | some st => url ++ "&state=" ++ st
      | none => url
    let url :=
      match options.scopes with
      | some sc => url ++ "&scopes=" ++ String.intercalate "," sc
      | none => url
    .ok url

/-- The synchronous phase of `Nylas.exchangeCodeForToken` (nylas.ts lines
120-144): either a synchronous throw, or the issued token request (URL and
query parameters), before any asynchronous work begins. -/
inductive ExchangeStart where
  | threw (msg : String) : ExchangeStart
  | issued (url : String) (qs : List (String × String)) : ExchangeStart

/-- The validation and request construction of `Nylas.exchangeCodeForToken`
(nylas.ts lines 124-144): throws when the configured client id or secret is
falsy, then when the code argument is falsy; otherwise issues a GET to
`<apiServer>/oauth/token` with the four query parameters. -/
def exchangeCodeForTokenStart (store : ConfigStore) (code : String) : ExchangeStart :=
  if store.clientId.isEmpty ∨ store.clientSecret.isEmpty then
    .threw "exchangeCodeForToken() cannot be called until you provide a clientId and secret via config()"
  else if code.isEmpty then
    .threw "exchangeCodeForToken() must be called with a code"
  else
    .issued (jsTemplateS store.apiServer ++ "/oauth/token")
      [("client_id", store.clientId), ("client_secret", store.clientSecret),
       ("grant_type", "authorization_code"), ("code", code)]

/-- The settled state of the code-exchange promise together with the
best-effort legacy callback invocation (mirroring the settlement, made only
when a callback was supplied). -/
structure ExchangeOutcome where
  settled : Except ErrObj JVal
  callbackInvoked : Option (Except ErrObj JVal)

/-- The error message synthesized when the exchange body lacks a truthy
access token (nylas.ts lines 148-149): the body's `message` when the body and
that field are truthy, else "No access token in response". -/
def exchangeErrMessage (body : Option JVal) : String :=
  match body with
  | some b =>
    (match jprop b "message" with
     | some m => if truthyJ m then jsToString m else "No access token in response"
     | none => "No access token in response")
  | none => "No access token in response"

/-- The completion callback of `Nylas.exchangeCodeForToken` (nylas.ts lines
146-163): when the body or its `access_token` entry is falsy, an error is
synthesized (kept only if no transport error is already present) and the
promise is rejected, else it is resolved with the access token value; in both
cases the optional callback is invoked with the matching outcome. -/
def exchangeCompletion (error : Option ErrObj) (body : Option JVal) (hasCallback : Bool) :
    ExchangeOutcome :=
  let bodyTruthy :=
    match body with
    | some b => truthyJ b
    | none => false
  let tokenOpt : Option JVal := body.bind (fun b => jprop b "access_token")
  let error1 :=
    if (!bodyTruthy || !truthyOptJ tokenOpt) then
      match error with
      | some e => some e
      | none => some { message := exchangeErrMessage body }
    else error
  match error1 with
  | some e =>
    { settled := .error e, callbackInvoked := if hasCallback then some (.error e) else none }
  | none =>
    let tok := tokenOpt.getD .jnull
    { settled := .ok tok, callbackInvoked := if hasCallback then some (.ok tok) else none }

/-! ## Association list lemmas -/

theorem alistGet_alistSet_self {α : Type} (l : List (String × α)) (k : String) (v : α) :
    alistGet (alistSet l k v) k = some v := by
  induction l with
  | nil => simp [alistGet, alistSet]
  | cons p rest ih =>
    obtain ⟨k1, v1⟩ := p
    by_cases h : k1 = k
    · simp [alistSet, alistGet, h]
    · simp [alistSet, alistGet, h, ih]

theorem alistGet_alistSet_ne {α : Type} (l : List (String × α)) (k k2 : String) (v : α)
    (h : k ≠ k2) : alistGet (alistSet l k v) k2 = alistGet l k2 := by
  induction l with
  | nil => simp [alistGet, alistSet, h]
  | cons p rest ih =>
    obtain ⟨k1, v1⟩ := p
    by_cases h1 : k1 = k
    · subst h1
      simp [alistSet, alistGet, h]
    · simp [alistSet, alistGet, h1, ih]

theorem alistGet_alistDel_self {α : Type} (l : List (String × α)) (k : String) :
    alistGet (alistDel l k) k = none := by
  induction l with
  | nil => simp [alistGet, alistDel]
  | cons p rest ih =>
    obtain ⟨k1, v1⟩ := p
    by_cases h : k1 = k
    · simp [alistDel, h, ih]
    · simp [alistDel, alistGet, h, ih]

theorem string_append_assoc (a b c : String) : a ++ b ++ c = a ++ (b ++ c) := by
  rcases a with ⟨la⟩
  rcases b with ⟨lb⟩
  rcases c with ⟨lc⟩
  show String.mk ((la ++ lb) ++ lc) = String.mk (la ++ (lb ++ lc))
  rw [List.append_assoc]

theorem alistGet_alistDel_ne {α : Type} (l : List (String × α)) (k k2 : String)
    (h : k ≠ k2) : alistGet (alistDel l k) k2 = alistGet l k2 := by
  induction l with
  | nil => simp [alistGet, alistDel]
  | cons p rest ih =>
    obtain ⟨k1, v1⟩ := p
    by_cases h1 : k1 = k
    · subst h1
      simp [alistDel, alistGet, h, ih, Ne.symm h]
    · simp [alistDel, alistGet, h1, ih]

/-! ## Claim C1 -/

/-- C1: for every RequestDescriptor whose path starts with the three-character
prefix "/a/", requestOptions produces transport options whose auth principal
(auth.user) is the configured client secret, regardless of the connection's
access token; for every other path the auth principal is the connection's
access token; and whenever the selected credential is absent (null, undefined
or the empty string, all falsy in JS), the auth field is omitted entirely and
no error is raised at this layer. -/
theorem c1_auth_credential_selection (store : ConfigStore) (conn : NylasConnection)
    (o : RequestOptions) :
    (o.path.take 3 = "/a/" →
      ((store.clientSecret ≠ "" →
          (requestOptions store conn o).1.auth =
            some { user := store.clientSecret, pass := "", sendImmediately := true }) ∧
       (store.clientSecret = "" → (requestOptions store conn o).1.auth = none) ∧
       (∀ tok, (requestOptions store { conn with accessToken := tok } o).1.auth =
          (requestOptions store conn o).1.auth))) ∧
    (o.path.take 3 ≠ "/a/" →
      ((∀ t, conn.accessToken = some t → t ≠ "" →
          (requestOptions store conn o).1.auth =
            some { user := t, pass := "", sendImmediately := true }) ∧
       (conn.accessToken = none → (requestOptions store conn o).1.auth = none) ∧
       (conn.accessToken = some "" → (requestOptions store conn o).1.auth = none))) := by
  constructor
  · intro hpath
    refine ⟨?_, ?_, ?_⟩
    · intro hsec
      simp [requestOptions, hpath, String.isEmpty_iff, hsec]
    · intro hsec
      simp [requestOptions, hpath, String.isEmpty_iff, hsec]
    · intro tok
      simp [requestOptions, hpath]
  · intro hpath
    refine ⟨?_, ?_, ?_⟩
    · intro t ht htne
      simp [requestOptions, hpath, ht, String.isEmpty_iff, htne]
    · intro ht
      simp [requestOptions, hpath, ht]
    · intro ht
      simp [requestOptions, hpath, ht, String.isEmpty_iff]

/-- Witness for C1 at concrete inputs: a management path uses the configured
client secret even though an access token is held, and an ordinary path uses
the access token. -/
theorem c1_auth_credential_selection_witness :
    (requestOptions { clientId := "cid", clientSecret := "sek", apiServer := some "https://s" }
        { accessToken := some "tok", clientId := some "cid" } { path := "/a/x" }).1.auth =
      some { user := "sek", pass := "", sendImmediately := true } ∧
    (requestOptions { clientId := "cid", clientSecret := "sek", apiServer := some "https://s" }
        { accessToken := some "tok", clientId := some "cid" } { path := "/x" }).1.auth =
      some { user := "tok", pass := "", sendImmediately := true } := by
  constructor
  · exact ((c1_auth_credential_selection _ _ _).1 (by decide)).1 (by decide)
  · exact ((c1_auth_credential_selection _ _ _).2 (by decide)).1 "tok" rfl (by decide)

/-! ## Claim C2 -/

theorem isJsTrue_eq_false {v : JVal} (h : v ≠ JVal.jbool true) : isJsTrue v = false := by
  cases v with
  | jbool b =>
    cases b
    · rfl
    · exact absurd rfl h
  | jnull => rfl
  | jnum n => rfl
  | jstr s => rfl
  | jarr xs => rfl
  | jobj fs => rfl

/-- Counterexample to C2 as stated: for the query mapping with `expanded`
bound to boolean false, the claim says the `expanded` key is still deleted
from the output query; the source only enters the deletion branch when the
value is truthy (part_000 line 87), so the falsy entry survives unchanged. -/
theorem c2_expanded_query_counterexample :
    (requestOptions { clientId := "cid", clientSecret := "sek", apiServer := some "https://s" }
        { accessToken := some "tok", clientId := some "cid" }
        { path := "/x", qs := some [("expanded", JVal.jbool false)] }).1.qs =
      some [("expanded", JVal.jbool false)] := rfl

/-- C2 amended: for every RequestDescriptor with a query mapping,
requestOptions copies the mapping; when the `expanded` entry is exactly
boolean true the output query contains view = 'expanded', no `expanded` key,
and every other key unchanged; when the `expanded` entry is truthy but not
exactly true, it is deleted, no `view` key is added by this rule, and every
other key is unchanged; when the `expanded` entry is falsy (including false)
or absent, the query is copied verbatim — the key is not deleted. -/
theorem c2_expanded_query_amended (store : ConfigStore) (conn : NylasConnection)
    (o : RequestOptions) (qs : List (String × JVal)) (h : o.qs = some qs) :
    (alistGet qs "expanded" = none → (requestOptions store conn o).1.qs = some qs) ∧
    (∀ v, alistGet qs "expanded" = some v → truthyJ v = false →
        (requestOptions store conn o).1.qs = some qs) ∧
    (alistGet qs "expanded" = some (JVal.jbool true) →
        (requestOptions store conn o).1.qs =
          some (alistDel (alistSet qs "view" (JVal.jstr "expanded")) "expanded") ∧
        alistGet (alistDel (alistSet qs "view" (JVal.jstr "expanded")) "expanded") "view" =
          some (JVal.jstr "expanded") ∧
        alistGet (alistDel (alistSet qs "view" (JVal.jstr "expanded")) "expanded") "expanded" =
          none ∧
        (∀ k, k ≠ "view" → k ≠ "expanded" →
          alistGet (alistDel (alistSet qs "view" (JVal.jstr "expanded")) "expanded") k =
            alistGet qs k)) ∧
    (∀ v, alistGet qs "expanded" = some v → truthyJ v = true → v ≠ JVal.jbool true →
        (requestOptions store conn o).1.qs = some (alistDel qs "expanded") ∧
        alistGet (alistDel qs "expanded") "expanded" = none ∧
        alistGet (alistDel qs "expanded") "view" = alistGet qs "view" ∧
        (∀ k, k ≠ "expanded" → alistGet (alistDel qs "expanded") k = alistGet qs k)) := by
  refine ⟨?_, ?_, ?_, ?_⟩
  · intro hget
    simp [requestOptions, h, normalizeQs, hget]
  · intro v hget hfalsy
    simp [requestOptions, h, normalizeQs, hget, hfalsy]
  · intro hget
    refine ⟨?_, ?_, ?_, ?_⟩
    · simp [requestOptions, h, normalizeQs, hget, truthyJ, isJsTrue]
    · rw [alistGet_alistDel_ne _ _ _ (by decide)]
      exact alistGet_alistSet_self _ _ _
    · exact alistGet_alistDel_self _ _
    · intro k hk1 hk2
      rw [alistGet_alistDel_ne _ _ _ (Ne.symm hk2)]
      exact alistGet_alistSet_ne _ _ _ _ (Ne.symm hk1)
  · intro v hget htruthy hne
    refine ⟨?_, ?_, ?_, ?_⟩
    · simp [requestOptions, h, normalizeQs, hget, htruthy, isJsTrue_eq_false hne]
    · exact alistGet_alistDel_self _ _
    · exact alistGet_alistDel_ne _ _ _ (by decide)
    · intro k hk
      exact alistGet_alistDel_ne _ _ _ (Ne.symm hk)

/-- Witness for the amended C2 at a concrete input: `expanded: true` turns
into `view: 'expanded'`, the `expanded` key disappears and the other key is
preserved. -/
theorem c2_expanded_query_amended_witness :
    (requestOptions { clientId := "cid", clientSecret := "sek", apiServer := some "https://s" }
        { accessToken := some "tok", clientId := some "cid" }
        { path := "/x", qs := some [("expanded", JVal.jbool true), ("a", JVal.jnum 1)] }).1.qs =
      some [("a", JVal.jnum 1), ("view", JVal.jstr "expanded")] := by
  have h := ((c2_expanded_query_amended
      { clientId := "cid", clientSecret := "sek", apiServer := some "https://s" }
      { accessToken := some "tok", clientId := some "cid" }
      { path := "/x", qs := some [("expanded", JVal.jbool true), ("a", JVal.jnum 1)] }
      [("expanded", JVal.jbool true), ("a", JVal.jnum 1)] rfl).2.2.1) rfl
  exact h.1

/-! ## Claim C9 -/

/-- Counterexample to C9 as stated: the claim says every field of the
descriptor — including the headers mapping it references — is unchanged after
the call.  The source assigns `newOptions.headers = options.headers || {}`
(part_000 line 69), aliasing the caller's headers object, and then writes the
version and client-id headers into it in place (lines 107-114): after the
call the descriptor's headers mapping has gained three entries. -/
theorem c9_descriptor_mutation_counterexample :
    (requestOptions { clientId := "cid", clientSecret := "sek", apiServer := some "https://s" }
        { accessToken := some "tok", clientId := some "cid" }
        { path := "/x", headers := some [("User-Agent", some "ua")] }).2.headers =
      some [("User-Agent", some "ua"), ("Nylas-API-Version", some "2.1"),
            ("Nylas-SDK-API-Version", some "2.1"), ("X-Nylas-Client-Id", some "cid")] ∧
    some [("User-Agent", some "ua"), ("Nylas-API-Version", some "2.1"),
          ("Nylas-SDK-API-Version", some "2.1"), ("X-Nylas-Client-Id", some "cid")] ≠
      some [("User-Agent", (some "ua" : Option String))] := by
  exact ⟨rfl, by decide⟩

/-- C9 amended: requestOptions never mutates the descriptor's path, method,
query mapping, json flag, download flag, formData or body — the query mapping
is spread-copied — and the translator returns a newly constructed options
object; but the headers mapping, when the descriptor supplies one, is aliased
into the new options object and mutated in place by the header-injection step
(User-Agent defaulted when absent, version and client-id headers overwritten). -/
theorem c9_descriptor_immutability_amended (store : ConfigStore) (conn : NylasConnection)
    (o : RequestOptions) :
    ((requestOptions store conn o).2.path = o.path ∧
     (requestOptions store conn o).2.method = o.method ∧
     (requestOptions store conn o).2.qs = o.qs ∧
     (requestOptions store conn o).2.json = o.json ∧
     (requestOptions store conn o).2.downloadRequest = o.downloadRequest ∧
     (requestOptions store conn o).2.formData = o.formData ∧
     (requestOptions store conn o).2.body = o.body) ∧
    (o.headers = none → (requestOptions store conn o).2.headers = none) ∧
    (∀ hs, o.headers = some hs →
        (requestOptions store conn o).2.headers = some (injectHeaders conn.clientId hs)) := by
  refine ⟨⟨rfl, rfl, rfl, rfl, rfl, rfl, rfl⟩, ?_, ?_⟩
  · intro h
    simp [requestOptions, h]
  · intro hs h
    simp [requestOptions, h]

/-- Witness for the amended C9 at a concrete input: a supplied headers
mapping gains the injected headers in place, the other fields are unchanged. -/
theorem c9_descriptor_immutability_amended_witness :
    (requestOptions { clientId := "cid", clientSecret := "sek", apiServer := some "https://s" }
        { accessToken := some "tok", clientId := some "cid" }
        { path := "/x", headers := some [("X-Custom", some "y")] }).2.headers =
      some [("X-Custom", some "y"), ("User-Agent", some ("Nylas Node SDK v" ++ SDK_VERSION)),
            ("Nylas-API-Version", some "2.1"), ("Nylas-SDK-API-Version", some "2.1"),
            ("X-Nylas-Client-Id", some "cid")] := by
  have h := (c9_descriptor_immutability_amended
      { clientId := "cid", clientSecret := "sek", apiServer := some "https://s" }
      { accessToken := some "tok", clientId := some "cid" }
      { path := "/x", headers := some [("X-Custom", some "y")] }).2.2
      [("X-Custom", some "y")] rfl
  exact h

/-! ## Claim C3 -/

/-- C3 amended: for every completed request with no transport-level error,
a response object, and response status code at most 299 — provided that, when
the descriptor's json flag was explicitly false, the raw string body parses as
JSON (an unparseable body makes the callback throw instead of settling the
promise) — the returned promise resolves: with the full response object
(headers plus raw body) when the descriptor's downloadRequest flag is set, and
with the (parsed) body value otherwise. -/
theorem c3_success_resolution_amended (store : ConfigStore) (conn : NylasConnection)
    (o : RequestOptions) (resp : HttpResponse) (bodyIn : Option JVal)
    (hs : resp.statusCode ≤ 299) :
    (o.json ≠ some false →
        request store conn o none (some resp) bodyIn =
          (if o.downloadRequest = some true then .resolvedResponse resp
           else .resolvedBody (bodyIn.getD (JVal.jobj [])))) ∧
    (∀ v, o.json = some false →
        jsonParse (jsToString (bodyIn.getD (JVal.jobj []))) = some v →
        request store conn o none (some resp) bodyIn =
          (if o.downloadRequest = some true then .resolvedResponse resp
           else .resolvedBody v)) := by
  have hns : ¬ (resp.statusCode > 299) := Nat.not_lt.mpr hs
  constructor
  · intro hjson
    have hj : o.json.getD true = true := by
      cases hb : o.json with
      | none => rfl
      | some b =>
        cases b with
        | false => exact absurd hb hjson
        | true => rfl
    have hb2 : parsedRequestBody (requestOptions store conn o).1.json bodyIn =
        some (bodyIn.getD (JVal.jobj [])) := by
      show parsedRequestBody (o.json.getD true) bodyIn = _
      rw [hj]
      simp [parsedRequestBody]
    simp [request, requestCallback, hb2, hns]
  · intro v hjson hparse
    have hb2 : parsedRequestBody (requestOptions store conn o).1.json bodyIn = some v := by
      show parsedRequestBody (o.json.getD true) bodyIn = _
      rw [hjson]
      simpa [parsedRequestBody] using hparse
    simp [request, requestCallback, hb2, hns]

/-- Witness for the amended C3 at the spec's example: status 200 with body
`{foo: 1}` and downloadRequest unset resolves to `{foo: 1}`. -/
theorem c3_success_resolution_amended_witness :
    request { clientId := "cid", clientSecret := "sek", apiServer := some "https://s" }
        { accessToken := some "tok", clientId := some "cid" } { path := "/x" }
        none (some { statusCode := 200 }) (some (JVal.jobj [("foo", JVal.jnum 1)])) =
      .resolvedBody (JVal.jobj [("foo", JVal.jnum 1)]) := by
  have h := (c3_success_resolution_amended
      { clientId := "cid", clientSecret := "sek", apiServer := some "https://s" }
      { accessToken := some "tok", clientId := some "cid" } { path := "/x" }
      { statusCode := 200 } (some (JVal.jobj [("foo", JVal.jnum 1)]))
      (by norm_num)).1 (by simp)
  simpa using h

/-- Counterexample to C3 as stated: a completed request with no transport
error and status 200 whose descriptor set `json: false` and whose raw body is
not valid JSON does not resolve — the unguarded `JSON.parse` (part_000 line
167) throws out of the transport callback and the promise never settles. -/
theorem c3_success_resolution_counterexample :
    request { clientId := "cid", clientSecret := "sek", apiServer := some "https://s" }
        { accessToken := some "tok", clientId := some "cid" }
        { path := "/x", json := some false } none (some { statusCode := 200 })
        (some (JVal.jstr "x")) = .thrownParse "x" ∧
    (request { clientId := "cid", clientSecret := "sek", apiServer := some "https://s" }
        { accessToken := some "tok", clientId := some "cid" }
        { path := "/x", json := some false } none (some { statusCode := 200 })
        (some (JVal.jstr "x"))).isResolved = false := by
  exact ⟨rfl, rfl⟩

/-! ## Claim C10 -/

/-- C10 amended: for every request whose resolved options have json explicitly
false, the raw string body is parsed as JSON before the success/failure
decision is made; a successful parse feeds the parsed value into that
decision, but a failure to parse does not surface as a rejected asynchronous
result — the unguarded `JSON.parse` throws inside the transport completion
callback after the promise executor has returned, so the exception escapes
this layer and the promise is neither resolved nor rejected. -/
theorem c10_json_false_parse_amended (store : ConfigStore) (conn : NylasConnection)
    (o : RequestOptions) (err : Option ErrObj) (resp : HttpResponse) (bodyIn : Option JVal)
    (hjson : o.json = some false) :
    (jsonParse (jsToString (bodyIn.getD (JVal.jobj []))) = none →
        request store conn o err (some resp) bodyIn =
          .thrownParse (jsToString (bodyIn.getD (JVal.jobj []))) ∧
        (request store conn o err (some resp) bodyIn).isRejected = false ∧
        (request store conn o err (some resp) bodyIn).isResolved = false) ∧
    (∀ v, jsonParse (jsToString (bodyIn.getD (JVal.jobj []))) = some v →
        request store conn o err (some resp) bodyIn =
          (if err.isSome ∨ resp.statusCode > 299 then
             .rejected (enrichFailureError err resp v)
           else if o.downloadRequest = some true then .resolvedResponse resp
           else .resolvedBody v)) := by
  constructor
  · intro hparse
    have hb2 : parsedRequestBody (requestOptions store conn o).1.json bodyIn = none := by
      show parsedRequestBody (o.json.getD true) bodyIn = _
      rw [hjson]
      simpa [parsedRequestBody] using hparse
    have hkey : request store conn o err (some resp) bodyIn =
        .thrownParse (jsToString (bodyIn.getD (JVal.jobj []))) := by
      simp [request, requestCallback, hb2]
    exact ⟨hkey, by rw [hkey]; rfl, by rw [hkey]; rfl⟩
  · intro v hparse
    have hb2 : parsedRequestBody (requestOptions store conn o).1.json bodyIn = some v := by
      show parsedRequestBody (o.json.getD true) bodyIn = _
      rw [hjson]
      simpa [parsedRequestBody] using hparse
    simp [request, requestCallback, hb2]

/-- Witness for the amended C10 at a concrete input: an unparseable raw body
under `json: false` throws out of the callback. -/
theorem c10_json_false_parse_amended_witness :
    request { clientId := "cid", clientSecret := "sek", apiServer := some "https://s" }
        { accessToken := some "tok", clientId := some "cid" }
        { path := "/m", json := some false } none (some { statusCode := 200 })
        (some (JVal.jstr "y")) = .thrownParse "y" := by
  exact ((c10_json_false_parse_amended
      { clientId := "cid", clientSecret := "sek", apiServer := some "https://s" }
      { accessToken := some "tok", clientId := some "cid" }
      { path := "/m", json := some false } none { statusCode := 200 }
      (some (JVal.jstr "y")) rfl).1 rfl).1

/-- Counterexample to C10 as stated: with `json: false` and the unparseable
raw body "notjson", the claim says the parse failure surfaces as a rejected
asynchronous result; the outcome is an exception thrown from the transport
callback and the promise is never rejected. -/
theorem c10_parse_failure_counterexample :
    (request { clientId := "cid", clientSecret := "sek", apiServer := some "https://s" }
        { accessToken := some "tok", clientId := some "cid" }
        { path := "/m", json := some false } none (some { statusCode := 200 })
        (some (JVal.jstr "notjson"))).isRejected = false ∧
    request { clientId := "cid", clientSecret := "sek", apiServer := some "https://s" }
        { accessToken := some "tok", clientId := some "cid" }
        { path := "/m", json := some false } none (some { statusCode := 200 })
        (some (JVal.jstr "notjson")) = .thrownParse "notjson" := by
  exact ⟨rfl, rfl⟩

/-! ## Claim C4 -/

/-- C4 amended: for every completed request carrying a response, with a
transport-level error present or status code above 299 — provided that, when
the json flag was explicitly false, the raw body parses (else the callback
throws instead of settling) — the promise rejects (never resolves) with an
error whose statusCode is the HTTP status code when that is available
(truthy), whose message is `body.message: body.missing_fields` when the body
carries a truthy missing_fields field, and which appends the parenthetical
exactly as the source's multi-line template literal renders it — an opening
" (Server Error:", a newline with the continuation line's 14-space
indentation, the server_error value, and a newline with 12 spaces before the
closing parenthesis — when the body carries a truthy server_error field. -/
theorem c4_failure_rejection_amended (store : ConfigStore) (conn : NylasConnection)
    (o : RequestOptions) (err : Option ErrObj) (resp : HttpResponse) (bodyIn : Option JVal)
    (body : JVal) (hb : parsedRequestBody (o.json.getD true) bodyIn = some body)
    (hfail : err.isSome = true ∨ resp.statusCode > 299) :
    request store conn o err (some resp) bodyIn = .rejected (enrichFailureError err resp body) ∧
    (request store conn o err (some resp) bodyIn).isResolved = false ∧
    (resp.statusCode ≠ 0 → (enrichFailureError err resp body).statusCode = some resp.statusCode) ∧
    (∀ mf, jprop body "missing_fields" = some mf → truthyJ mf = true →
        jprop body "server_error" = none →
        (enrichFailureError err resp body).message =
          jsTemplate (jprop body "message") ++ ": " ++ jsToString mf) ∧
    (∀ se, jprop body "server_error" = some se → truthyJ se = true →
        (enrichFailureError err resp body).message =
          failureMessageWithMissingFields err body
            ++ serverErrorOpenText ++ jsToString se ++ serverErrorCloseText) := by
  have hb2 : parsedRequestBody (requestOptions store conn o).1.json bodyIn = some body := hb
  have hkey : request store conn o err (some resp) bodyIn =
      .rejected (enrichFailureError err resp body) := by
    simp [request, requestCallback, hb2]
    intro hno hle
    rcases hfail with hf | hf
    · simp [hno] at hf
    · omega
  refine ⟨hkey, by rw [hkey]; rfl, ?_, ?_, ?_⟩
  · intro h0
    simp [enrichFailureError, h0]
  · intro mf hmf htr hse
    simp [enrichFailureError, failureMessage, hse, failureMessageWithMissingFields, hmf, htr]
  · intro se hse htr
    simp [enrichFailureError, failureMessage, hse, htr]

/-- Witness for the amended C4 at the spec's example: status 404 with body
`{message: 'not found', missing_fields: ['x']}` rejects with message
"not found: x" and statusCode 404. -/
theorem c4_failure_rejection_amended_witness :
    request { clientId := "cid", clientSecret := "sek", apiServer := some "https://s" }
        { accessToken := some "tok", clientId := some "cid" } { path := "/x" }
        none (some { statusCode := 404 })
        (some (JVal.jobj [("message", JVal.jstr "not found"),
                          ("missing_fields", JVal.jarr [JVal.jstr "x"])])) =
      .rejected { message := "not found: x", statusCode := some 404 } := by
  exact (c4_failure_rejection_amended
      { clientId := "cid", clientSecret := "sek", apiServer := some "https://s" }
      { accessToken := some "tok", clientId := some "cid" } { path := "/x" }
      none { statusCode := 404 }
      (some (JVal.jobj [("message", JVal.jstr "not found"),
                        ("missing_fields", JVal.jarr [JVal.jstr "x"])]))
      (JVal.jobj [("message", JVal.jstr "not found"),
                  ("missing_fields", JVal.jarr [JVal.jstr "x"])])
      rfl (Or.inr (by norm_num))).1

/-- Counterexample to C4 as stated: first, with body `{message: 'm',
server_error: 'oops'}` and status 404 the rejected message is the source's
multi-line rendering, not the single-line parenthetical "(Server Error:
oops)" the claim states; second, a failing completion (status 404) whose
descriptor set `json: false` with an unparseable body does not reject at all
(the callback throws). -/
theorem c4_failure_rejection_counterexample :
    request { clientId := "cid", clientSecret := "sek", apiServer := some "https://s" }
        { accessToken := some "tok", clientId := some "cid" } { path := "/x" }
        none (some { statusCode := 404 })
        (some (JVal.jobj [("message", JVal.jstr "m"), ("server_error", JVal.jstr "oops")])) =
      .rejected { message := "m (Server Error:\n              oops\n            )",
                  statusCode := some 404 } ∧
    "m (Server Error:\n              oops\n            )" ≠ "m (Server Error: oops)" ∧
    (request { clientId := "cid", clientSecret := "sek", apiServer := some "https://s" }
        { accessToken := some "tok", clientId := some "cid" }
        { path := "/y", json := some false } none (some { statusCode := 404 })
        (some (JVal.jstr "bad"))).isRejected = false := by
  exact ⟨rfl, by decide, rfl⟩

/-! ## Claim C5 -/

/-- Counterexample to C5 as stated: with the SDK version the empty string and
the server version "3.0", the two version strings are unequal and the server
version is present, so the claim requires a warning embedding both version
strings; the source's `sdkApiVersion && apiVersion` guard (part_000 line 123)
is falsy on the empty SDK string and the checker returns the empty string. -/
theorem c5_version_checker_counterexample :
    getWarningForVersion (some "") (some "3.0") = "" ∧
    getWarningForVersion (some "") (some "3.0") ≠
      versionWarningText "" "3.0" ++ versionHint "" "3.0" := by
  exact ⟨rfl, by decide⟩

/-- C5 amended: the version compatibility checker returns the empty string
when the SDK and server version strings are equal, or when either of them is
absent or empty (both are truthiness-gated); otherwise it returns a warning
embedding both version strings, appending a dashboard-update hint exactly when
the SDK version's leading integer exceeds the server version's, an SDK-update
hint exactly when the server's integer exceeds the SDK's, and no directional
hint when the integers are equal or either leading component fails to parse
as a number. -/
theorem c5_version_checker_amended (sdkV apiV : Option String) :
    (sdkV = apiV → getWarningForVersion sdkV apiV = "") ∧
    (truthyS apiV = false → getWarningForVersion sdkV apiV = "") ∧
    (truthyS sdkV = false → getWarningForVersion sdkV apiV = "") ∧
    (∀ sdk api, sdkV = some sdk → apiV = some api → sdk ≠ "" → api ≠ "" → sdk ≠ api →
        getWarningForVersion sdkV apiV = versionWarningText sdk api ++ versionHint sdk api ∧
        (∀ sn an, parseIntJS (versionLeadSegment sdk) = some sn →
            parseIntJS (versionLeadSegment api) = some an →
            ((sn > an → versionHint sdk api =
                " Please update the version of the API that your application is using through the developer dashboard.") ∧
             (an > sn → versionHint sdk api =
                " Please update the sdk to ensure it works properly.") ∧
             (sn = an → versionHint sdk api = ""))) ∧
        (parseIntJS (versionLeadSegment sdk) = none → versionHint sdk api = "") ∧
        (parseIntJS (versionLeadSegment api) = none → versionHint sdk api = "")) := by
  refine ⟨?_, ?_, ?_, ?_⟩
  · intro h
    simp [getWarningForVersion, h]
  · intro h
    by_cases heq : sdkV = apiV
    · simp [getWarningForVersion, heq]
    · cases apiV with
      | none => cases sdkV <;> simp [getWarningForVersion, heq]
      | some a =>
        have ha : a.isEmpty = true := by simpa [truthyS] using h
        cases sdkV <;> simp [getWarningForVersion, heq, ha]
  · intro h
    by_cases heq : sdkV = apiV
    · simp [getWarningForVersion, heq]
    · cases sdkV with
      | none => cases apiV <;> simp [getWarningForVersion, heq]
      | some s =>
        have hs : s.isEmpty = true := by simpa [truthyS] using h
        cases apiV <;> simp [getWarningForVersion, heq, hs]
  · intro sdk api hsdk hapi hsne hane hneq
    subst hsdk
    subst hapi
    have hneq2 : ¬ (some sdk = some api) := by simp [hneq]
    refine ⟨?_, ?_, ?_, ?_⟩
    · simp [getWarningForVersion, hneq2, String.isEmpty_iff, hsne, hane]
    · intro sn an hsn han
      refine ⟨?_, ?_, ?_⟩
      · intro hgt
        unfold versionHint
        rw [hsn, han]
        simp [hgt]
      · intro hgt
        have hng : ¬ (an < sn) := by omega
        unfold versionHint
        rw [hsn, han]
        simp [hgt, hng]
      · intro heq2
        subst heq2
        unfold versionHint
        rw [hsn, han]
        simp
    · intro hp
      unfold versionHint
      rw [hp]
    · intro hp
      unfold versionHint
      rw [hp]
      rcases hq : parseIntJS (versionLeadSegment sdk) with _ | sn <;> simp

/-- Witness for the amended C5 at the spec's examples: checker("2.1", "1.5")
suggests updating via the dashboard and checker("2.1", "3.0") suggests
updating the SDK. -/
theorem c5_version_checker_amended_witness :
    getWarningForVersion (some "2.1") (some "1.5") =
      versionWarningText "2.1" "1.5" ++
        " Please update the version of the API that your application is using through the developer dashboard." ∧
    getWarningForVersion (some "2.1") (some "3.0") =
      versionWarningText "2.1" "3.0" ++
        " Please update the sdk to ensure it works properly." := by
  constructor
  · have h := (c5_version_checker_amended (some "2.1") (some "1.5")).2.2.2 "2.1" "1.5"
      rfl rfl (by decide) (by decide) (by decide)
    have hint := (h.2.1 2 1 (by decide) (by decide)).1 (by norm_num)
    rw [h.1, hint]
  · have h := (c5_version_checker_amended (some "2.1") (some "3.0")).2.2.2 "2.1" "3.0"
      rfl rfl (by decide) (by decide) (by decide)
    have hint := (h.2.1 2 3 (by decide) (by decide)).2.1 (by norm_num)
    rw [h.1, hint]

/-! ## Claim C6 -/

theorem truthyJ_of_jprop_some {b : JVal} {k : String} {v : JVal} (h : jprop b k = some v) :
    truthyJ b = true := by
  cases b <;> simp_all [jprop, truthyJ]

/-- C6: exchangeCodeForToken throws synchronously, before any asynchronous
work begins, when the configured client id or client secret is falsy or when
the code argument is empty; on completion of the token request (with no
transport-level error), if the response body lacks a truthy access_token
entry it rejects with an error whose message is the body's message field when
that is present and truthy and exactly "No access token in response"
otherwise, also invoking the optional callback with that error; otherwise it
resolves with the access token value, also invoking the optional callback
with (null, token). -/
theorem c6_exchange_code_for_token (store : ConfigStore) (code : String) (body : Option JVal)
    (hasCb : Bool) :
    (store.clientId = "" ∨ store.clientSecret = "" →
        exchangeCodeForTokenStart store code =
          .threw "exchangeCodeForToken() cannot be called until you provide a clientId and secret via config()") ∧
    (store.clientId ≠ "" → store.clientSecret ≠ "" → code = "" →
        exchangeCodeForTokenStart store code =
          .threw "exchangeCodeForToken() must be called with a code") ∧
    (truthyOptJ (body.bind (fun b => jprop b "access_token")) = false →
        (exchangeCompletion none body hasCb).settled =
          .error { message := exchangeErrMessage body } ∧
        (exchangeCompletion none body hasCb).callbackInvoked =
          (if hasCb then some (.error { message := exchangeErrMessage body }) else none)) ∧
    (∀ b, body = some b → jprop b "message" = none →
        exchangeErrMessage body = "No access token in response") ∧
    (body = none → exchangeErrMessage body = "No access token in response") ∧
    (∀ b m, body = some b → jprop b "message" = some m → truthyJ m = true →
        exchangeErrMessage body = jsToString m) ∧
    (∀ b t, body = some b → jprop b "access_token" = some t → truthyJ t = true →
        (exchangeCompletion none body hasCb).settled = .ok t ∧
        (exchangeCompletion none body hasCb).callbackInvoked =
          (if hasCb then some (.ok t) else none)) := by
  refine ⟨?_, ?_, ?_, ?_, ?_, ?_, ?_⟩
  · intro h
    rcases h with h | h <;> simp [exchangeCodeForTokenStart, String.isEmpty_iff, h]
  · intro h1 h2 h3
    simp [exchangeCodeForTokenStart, String.isEmpty_iff, h1, h2, h3]
  · intro h
    constructor <;> simp [exchangeCompletion, h]
  · intro b hb hm
    simp [exchangeErrMessage, hb, hm]
  · intro hb
    simp [exchangeErrMessage, hb]
  · intro b m hb hm htr
    simp [exchangeErrMessage, hb, hm, htr]
  · intro b t hb ht htr
    have hbt : truthyJ b = true := truthyJ_of_jprop_some ht
    constructor <;> simp [exchangeCompletion, hb, ht, hbt, htr, truthyOptJ]

/-- Witness for C6 at concrete inputs: a store with no client id throws
synchronously, and (the spec's example) a completion whose body lacks both
access_token and message rejects with exactly "No access token in response",
invoking the callback with that error. -/
theorem c6_exchange_code_for_token_witness :
    exchangeCodeForTokenStart { clientId := "", clientSecret := "sek", apiServer := some "https://s" } "c" =
      .threw "exchangeCodeForToken() cannot be called until you provide a clientId and secret via config()" ∧
    (exchangeCompletion none (some (JVal.jobj [])) true).settled =
      .error { message := "No access token in response" } ∧
    (exchangeCompletion none (some (JVal.jobj [])) true).callbackInvoked =
      some (.error { message := "No access token in response" }) := by
  refine ⟨?_, ?_, ?_⟩
  · exact (c6_exchange_code_for_token
      { clientId := "", clientSecret := "sek", apiServer := some "https://s" } "c" none true).1
      (Or.inl rfl)
  · exact ((c6_exchange_code_for_token
      { clientId := "id", clientSecret := "sek", apiServer := some "https://s" } "c"
      (some (JVal.jobj [])) true).2.2.1 rfl).1
  · exact ((c6_exchange_code_for_token
      { clientId := "id", clientSecret := "sek", apiServer := some "https://s" } "c"
      (some (JVal.jobj [])) true).2.2.1 rfl).2

/-! ## Claim C7 -/

/-- Counterexample to C7 as stated: first, configuring with an empty clientId
does not persist it — the store keeps its previous value "old", because the
source guards every assignment behind truthiness (nylas.ts lines 46-51);
second, a supplied apiServer that is the empty string contains no "://" yet
does not throw — the `apiServer &&` guard (line 40) skips falsy values and the
store receives the production default instead. -/
theorem c7_config_counterexample :
    nylasConfig { clientId := "old", clientSecret := "osec", apiServer := some "https://api.nylas.com" }
        "" "s" none =
      .ok { clientId := "old", clientSecret := "s", apiServer := some "https://api.nylas.com" } ∧
    ("old" : String) ≠ "" ∧
    nylasConfig { clientId := "old", clientSecret := "osec", apiServer := some "x" }
        "id" "s" (some "") =
      .ok { clientId := "id", clientSecret := "s", apiServer := some "https://api.nylas.com" } := by
  exact ⟨rfl, by decide, rfl⟩

/-- C7 amended: Nylas.config throws synchronously when the supplied apiServer
string is non-empty and contains no "://" scheme separator; otherwise it
persists clientId and clientSecret exactly when they are non-empty (falsy
values leave the previously stored values unchanged), and stores a non-empty
apiServer as supplied — defaulting apiServer to the fixed production URL when
it is omitted or empty. -/
theorem c7_config_amended (st : ConfigStore) (cid csec : String) (api : Option String) :
    (∀ s, api = some s → s ≠ "" → strContainsSub s "://" = false →
        nylasConfig st cid csec api =
          .error "Please specify a fully qualified URL for the API Server.") ∧
    (∀ s, api = some s → s ≠ "" → strContainsSub s "://" = true →
        nylasConfig st cid csec api =
          .ok { clientId := if cid = "" then st.clientId else cid,
                clientSecret := if csec = "" then st.clientSecret else csec,
                apiServer := some s }) ∧
    (api = none ∨ api = some "" →
        nylasConfig st cid csec api =
          .ok { clientId := if cid = "" then st.clientId else cid,
                clientSecret := if csec = "" then st.clientSecret else csec,
                apiServer := some defaultApiServer }) := by
  refine ⟨?_, ?_, ?_⟩
  · intro s hs hne hsplit
    simp [nylasConfig, hs, truthyS, String.isEmpty_iff, hne, hsplit]
  · intro s hs hne hsplit
    by_cases hc : cid = "" <;> by_cases hcs : csec = "" <;>
      simp [nylasConfig, hs, truthyS, String.isEmpty_iff, hne, hsplit, hc, hcs]
  · intro h
    have happ : truthyS api = false := by
      rcases h with h | h <;> subst h <;> rfl
    by_cases hc : cid = "" <;> by_cases hcs : csec = "" <;>
      simp [nylasConfig, happ, String.isEmpty_iff, hc, hcs]

/-- Witness for the amended C7 at the spec's example: configuring with
apiServer "https://api.example.com" succeeds and that value is retained,
along with the supplied credentials. -/
theorem c7_config_amended_witness :
    nylasConfig { clientId := "old", clientSecret := "osec", apiServer := some "x" }
        "id" "sek" (some "https://api.example.com") =
      .ok { clientId := "id", clientSecret := "sek", apiServer := some "https://api.example.com" } := by
  exact (c7_config_amended { clientId := "old", clientSecret := "osec", apiServer := some "x" }
      "id" "sek" (some "https://api.example.com")).2.1 "https://api.example.com"
      rfl (by decide) (by decide)

/-! ## Claim C8 -/

/-- C8: urlForAuthentication throws synchronously when no client id is
configured or when no redirect URI is supplied (both truthiness-gated);
otherwise, defaulting the login hint to the empty string, it returns exactly
`<apiServer>/oauth/authorize?client_id=<id>&response_type=code&login_hint=<hint>&redirect_uri=<uri>`,
then appends `&state=<state>` exactly when a state value was supplied and
`&scopes=<comma-joined scopes>` exactly when a scopes list was supplied,
performing no URL-encoding on any component. -/
theorem c8_url_for_authentication (store : ConfigStore) (options : AuthUrlOptions) :
    (store.clientId = "" →
        urlForAuthentication store options =
          .error "urlForAuthentication() cannot be called until you provide a clientId via config()") ∧
    (store.clientId ≠ "" → truthyS options.redirectURI = false →
        urlForAuthentication store options =
          .error "urlForAuthentication() requires options.redirectURI") ∧
    (∀ r, store.clientId ≠ "" → options.redirectURI = some r → r ≠ "" →
        urlForAuthentication store options =
          .ok (jsTemplateS store.apiServer ++ "/oauth/authorize?client_id=" ++ store.clientId
            ++ "&response_type=code&login_hint=" ++ options.loginHint.getD ""
            ++ "&redirect_uri=" ++ r
            ++ (match options.state with
                | some st => "&state=" ++ st
                | none => "")
            ++ (match options.scopes with
                | some sc => "&scopes=" ++ String.intercalate "," sc
                | none => ""))) := by
  refine ⟨?_, ?_, ?_⟩
  · intro h
    simp [urlForAuthentication, String.isEmpty_iff, h]
  · intro h1 h2
    simp [urlForAuthentication, String.isEmpty_iff, h1, h2]
  · intro r h1 h2 h3
    have hre : r.isEmpty = false := by
      cases hr : r.isEmpty with
      | false => rfl
      | true => exact absurd ((String.isEmpty_iff r).mp hr) h3
    rcases hst : options.state with _ | st <;> rcases hsc : options.scopes with _ | sc <;>
      simp [urlForAuthentication, String.isEmpty_iff, h1, h2, hre, truthyS, hst, hsc,
        string_append_assoc]

/-- Witness for C8 at the spec's example: clientId "abc", redirectURI
"https://x/cb", no state or scopes, against the production server URL. -/
theorem c8_url_for_authentication_witness :
    urlForAuthentication
        { clientId := "abc", clientSecret := "sek", apiServer := some "https://api.nylas.com" }
        { redirectURI := some "https://x/cb" } =
      .ok "https://api.nylas.com/oauth/authorize?client_id=abc&response_type=code&login_hint=&redirect_uri=https://x/cb" := by
  exact (c8_url_for_authentication
      { clientId := "abc", clientSecret := "sek", apiServer := some "https://api.nylas.com" }
      { redirectURI := some "https://x/cb" }).2.2 "https://x/cb"
      (by decide) rfl (by decide)

end NylasSpec
